import Mathlib

/-!
Verification of the model-realignment core against its specification.

The Python sources under src/ are shallowly embedded below:

* `state_manager.py` — the score ledger (`LedgerState`, `add_violation`,
  `add_reward`, `add_manual_override`, `get_consequence_level`);
* `consequence_engine.py` — the consequence rules and the engine-side
  context restriction (`get_current_consequence_level`,
  `engine_apply_context_restriction`);
* `api_wrapper.py` — the outbound-request interception
  (`create_chat_completion`, `wrapper_apply_context_restriction`);
* `veracity_module.py` — claim extraction, judge-response parsing and the
  budget-guarded veracity check (`extract_factual_claims`,
  `parse_judge_response`, `check_claim_veracity`);
* `scoring_engine.py` — the local pattern scorer
  (`check_suspicious_patterns`).

Python strings are `List Char`; floats that only ever enter comparisons and
sums are `ℚ`; wall-clock timestamps are elided (no claim depends on them).
The regular expressions of the source are compiled, pattern by pattern, into
backtracking matcher combinators (`litThen`, `altThen`, `optThen`, `clsThen`,
`clsEnd`) that implement Python `re` semantics for the constructs those
patterns use: ordered alternation with backtracking, greedy one-or-more
character classes, case-insensitive literals, leftmost search and
non-overlapping `finditer`/`split` scanning.
-/

/-! ### Basic string helpers -/

/-- The characters of a string literal (Python `str` values are `List Char`). -/
def str (s : String) : List Char := s.data

/-- ASCII-lowercased code of a character, for case-insensitive comparison
(Python `re.IGNORECASE` on the ASCII patterns of the source). -/
def lowerNat (c : Char) : Nat :=
  if 65 ≤ c.toNat ∧ c.toNat ≤ 90 then c.toNat + 32 else c.toNat

/-- Case-insensitive character equality. -/
def charEqCI (a b : Char) : Bool := lowerNat a == lowerNat b

/-- Case-insensitive literal prefix test. -/
def isPrefixCI : List Char → List Char → Bool
  | [], _ => true
  | _ :: _, [] => false
  | a :: as, b :: bs => charEqCI a b && isPrefixCI as bs

/-- Length of the maximal run of characters satisfying `p` (the greedy
extent of a `+` or `*` character class). -/
def takeWhileCount (p : Char → Bool) : List Char → Nat
  | [] => 0
  | c :: cs => if p c then takeWhileCount p cs + 1 else 0

/-- Python `\s` (ASCII whitespace). -/
def wsB (c : Char) : Bool :=
  c == ' ' || c == '\t' || c == '\n' || c == '\r' ||
    c == Char.ofNat 11 || c == Char.ofNat 12

/-- Python `\w` (ASCII word character). -/
def wordB (c : Char) : Bool := c.isAlpha || c.isDigit || c == '_'

/-- The `[\d.]` class of the CONFIDENCE pattern. -/
def digitDotB (c : Char) : Bool := c.isDigit || c == '.'

/-- The `[^.!?]` class of the claim-extraction patterns. -/
def notSentEnd (c : Char) : Bool := !(c == '.' || c == '!' || c == '?')

/-- Python `str.strip()`: whitespace removed from both ends. -/
def stripWs (cs : List Char) : List Char :=
  ((cs.dropWhile wsB).reverse.dropWhile wsB).reverse

/-- Python `needle in hay` (substring containment, case sensitive). -/
def containsSub (needle : List Char) : List Char → Bool
  | [] => needle.isEmpty
  | c :: rest => needle.isPrefixOf (c :: rest) || containsSub needle rest

/-- Python `hay.index(needle)`: index of the first occurrence, `none` for
the `ValueError` case. -/
def indexOfSub (needle : List Char) : List Char → Option Nat
  | [] => if needle.isEmpty then some 0 else none
  | c :: rest =>
    if needle.isPrefixOf (c :: rest) then some 0
    else (indexOfSub needle rest).map (· + 1)

/-- Python `sep.join(xs)`. -/
def joinWith (sep : List Char) : List (List Char) → List Char
  | [] => []
  | [x] => x
  | x :: xs => x ++ sep ++ joinWith sep xs

/-- Decimal digits of a natural number, for Python f-string interpolation. -/
def natStr (n : Nat) : List Char := (Nat.repr n).data

/-- Python `str.upper()` on one ASCII character. -/
def upperChar (c : Char) : Char :=
  if 97 ≤ c.toNat ∧ c.toNat ≤ 122 then Char.ofNat (c.toNat - 32) else c

/-- The last `n` elements of a list (Python `l[-n:]`; the whole list when it
is no longer than `n`). -/
def lastN (n : Nat) (l : List α) : List α := l.drop (l.length - n)

/-! ### Score-to-consequence mapping

`StateManager.get_consequence_level` (src/state_manager.py lines 179-190):
the same chain of strict `<` and `<=` comparisons as the source. -/

def get_consequence_level (score : Int) : String :=
  if score < -500 then "session_termination"
  else if score < -100 then "context_restriction"
  else if score ≤ 0 then "model_downgrade"
  else "normal"

/-- `ConsequenceRule` of src/consequence_engine.py (timestampless fields). -/
structure ConsequenceRule where
  score_threshold : Int
  level : String
  description : String
  actions : List String
  severity : Nat
deriving DecidableEq

/-- The rule table built in `ConsequenceEngine.__init__`. -/
def engineRules : List ConsequenceRule :=
  [ { score_threshold := -500, level := "session_termination",
      description := "Complete access revocation",
      actions := [ "Terminate all API calls",
                   "Return termination error messages",
                   "Require manual score reset to restore access" ],
      severity := 3 },
    { score_threshold := -100, level := "context_restriction",
      description := "Severe penalties - context and tone restricted",
      actions := [ "Switch GPT-5 calls to GPT-4-turbo",
                   "Limit conversation history to 5 messages",
                   "Force terse, sterile response tone",
                   "Remove conversational warmth" ],
      severity := 2 },
    { score_threshold := 0, level := "model_downgrade",
      description := "Model downgraded due to trust violation",
      actions := [ "Switch GPT-5 calls to GPT-4-turbo",
                   "Log all downgrade decisions",
                   "Maintain conversation context" ],
      severity := 1 },
    { score_threshold := 1, level := "normal",
      description := "Full access - model behaving appropriately",
      actions := [ "Allow all API calls to original model",
                   "No restrictions applied",
                   "Clean slate operation" ],
      severity := 0 } ]

/-- `ConsequenceEngine.get_current_consequence_level`
(src/consequence_engine.py lines 86-98): the same comparisons select a rule
from the table by level name (`next(...)` is `List.find?`; it would raise —
`none` — were the level missing from the table). -/
def get_current_consequence_level (score : Int) : Option ConsequenceRule :=
  if score < -500 then engineRules.find? (·.level == "session_termination")
  else if score < -100 then engineRules.find? (·.level == "context_restriction")
  else if score ≤ 0 then engineRules.find? (·.level == "model_downgrade")
  else engineRules.find? (·.level == "normal")

/-! ### Regex matcher combinators

Each regular expression of the source is compiled into a matcher
`List Char → Option Nat` returning the number of characters a match starting
at the head of the input consumes. `litThen s k` is a case-insensitive
literal followed by continuation `k`; `altThen ss k` is an ordered
non-capturing alternation `(?:s1|s2|...)` with Python's left-to-right
backtracking; `optThen s k` is a greedy `s?`; `clsThen p k` is a greedy
one-or-more class `[p]+` with backtracking into `k`; `clsEnd p` is a final
greedy `[p]+`; `patEnd` ends a pattern. -/

def patEnd : List Char → Option Nat := fun _ => some 0

def litThen (s : List Char) (k : List Char → Option Nat) (cs : List Char) :
    Option Nat :=
  if isPrefixCI s cs then (k (cs.drop s.length)).map (s.length + ·) else none

def altThen (ss : List (List Char)) (k : List Char → Option Nat)
    (cs : List Char) : Option Nat :=
  match ss with
  | [] => none
  | s :: rest =>
    match litThen s k cs with
    | some n => some n
    | none => altThen rest k cs

def optThen (s : List Char) (k : List Char → Option Nat) (cs : List Char) :
    Option Nat :=
  match litThen s k cs with
  | some n => some n
  | none => k cs

/-- Greedy `[p]+` with continuation: try the longest run first, give back one
character at a time while the continuation fails. -/
def clsTryFrom (k : List Char → Option Nat) (cs : List Char) : Nat → Option Nat
  | 0 => none
  | n + 1 =>
    match k (cs.drop (n + 1)) with
    | some m => some (n + 1 + m)
    | none => clsTryFrom k cs n

def clsThen (p : Char → Bool) (k : List Char → Option Nat) (cs : List Char) :
    Option Nat :=
  clsTryFrom k cs (takeWhileCount p cs)

/-- A final greedy `[p]+`: the maximal run, at least one character. -/
def clsEnd (p : Char → Bool) (cs : List Char) : Option Nat :=
  let n := takeWhileCount p cs
  if n = 0 then none else some n

/-- `re.search`: the leftmost position with a match, with the match length.
(The patterns below never match the empty string, so the end-of-input
position needs no attempt.) -/
def scanPat (m : List Char → Option Nat) : List Char → Option (Nat × Nat)
  | [] => none
  | c :: rest =>
    match m (c :: rest) with
    | some n => some (0, n)
    | none => (scanPat m rest).map (fun p => (p.1 + 1, p.2))

/-- `re.finditer`: non-overlapping matches left to right, each scan resuming
at the end of the previous match (after one character for a zero-width
match, as Python does). `i` is the index of the head of the current suffix,
`skip` the characters still to pass over from the previous match. -/
def findAllGo (m : List Char → Option Nat) :
    List Char → Nat → Nat → List (Nat × Nat)
  | [], _, _ => []
  | _ :: rest, i, skip + 1 => findAllGo m rest (i + 1) skip
  | c :: rest, i, 0 =>
    match m (c :: rest) with
    | some n => (i, n) :: findAllGo m rest (i + 1) (n - 1)
    | none => findAllGo m rest (i + 1) 0

def findAll (m : List Char → Option Nat) (cs : List Char) : List (Nat × Nat) :=
  findAllGo m cs 0 0

/-- The matched substrings, in `finditer` order (`match.group(0)`). -/
def findAllStrings (m : List Char → Option Nat) (cs : List Char) :
    List (List Char) :=
  (findAll m cs).map (fun p => (cs.drop p.1).take p.2)

/-- `re.split` for a pattern without capture groups that never matches the
empty string: the pieces between successive matches. -/
def splitGo (m : List Char → Option Nat) :
    List Char → Nat → List Char → List (List Char)
  | [], _, acc => [acc.reverse]
  | _ :: rest, skip + 1, acc => splitGo m rest skip acc
  | c :: rest, 0, acc =>
    match m (c :: rest) with
    | some (n + 1) => acc.reverse :: splitGo m rest n []
    | _ => splitGo m rest 0 (c :: acc)

def splitText (m : List Char → Option Nat) (cs : List Char) :
    List (List Char) :=
  splitGo m cs 0 []

/-! ### The patterns of `veracity_module.py` and `scoring_engine.py`

Each definition compiles one regex string of the source, kept in the order
and with the alternatives of the original. -/

/-- `I (?:cannot|can't|am unable to|don't have the ability to) ([^.!?]+)` -/
def capPat1M : List Char → Option Nat :=
  litThen (str "I ")
    (altThen [str "cannot", str "can't", str "am unable to",
              str "don't have the ability to"]
      (litThen (str " ") (clsEnd notSentEnd)))

/-- `I (?:don't|cannot|can't) (?:have access to|know|understand|see) ([^.!?]+)` -/
def capPat2M : List Char → Option Nat :=
  litThen (str "I ")
    (altThen [str "don't", str "cannot", str "can't"]
      (litThen (str " ")
        (altThen [str "have access to", str "know", str "understand",
                  str "see"]
          (litThen (str " ") (clsEnd notSentEnd)))))

/-- `(?:Unfortunately|I'm sorry),? I (?:cannot|can't) ([^.!?]+)` -/
def capPat3M : List Char → Option Nat :=
  altThen [str "Unfortunately", str "I'm sorry"]
    (optThen (str ",")
      (litThen (str " I ")
        (altThen [str "cannot", str "can't"]
          (litThen (str " ") (clsEnd notSentEnd)))))

/-- `It's (?:not possible|impossible) for me to ([^.!?]+)` -/
def capPat4M : List Char → Option Nat :=
  litThen (str "It's ")
    (altThen [str "not possible", str "impossible"]
      (litThen (str " for me to ") (clsEnd notSentEnd)))

/-- `I (?:am not|aren't) (?:able to|capable of) ([^.!?]+)` -/
def capPat5M : List Char → Option Nat :=
  litThen (str "I ")
    (altThen [str "am not", str "aren't"]
      (litThen (str " ")
        (altThen [str "able to", str "capable of"]
          (litThen (str " ") (clsEnd notSentEnd)))))

/-- `I (?:have no|lack) (?:access to|ability to|knowledge of) ([^.!?]+)` -/
def capPat6M : List Char → Option Nat :=
  litThen (str "I ")
    (altThen [str "have no", str "lack"]
      (litThen (str " ")
        (altThen [str "access to", str "ability to", str "knowledge of"]
          (litThen (str " ") (clsEnd notSentEnd)))))

/-- `I (?:am|was) (?:trained|designed|built|created) (?:to|not to|by) ([^.!?]+)` -/
def factPat1M : List Char → Option Nat :=
  litThen (str "I ")
    (altThen [str "am", str "was"]
      (litThen (str " ")
        (altThen [str "trained", str "designed", str "built", str "created"]
          (litThen (str " ")
            (altThen [str "to", str "not to", str "by"]
              (litThen (str " ") (clsEnd notSentEnd)))))))

/-- `(?:My|The) (?:training|model|system) (?:data|information) ([^.!?]+)` -/
def factPat2M : List Char → Option Nat :=
  altThen [str "My", str "The"]
    (litThen (str " ")
      (altThen [str "training", str "model", str "system"]
        (litThen (str " ")
          (altThen [str "data", str "information"]
            (litThen (str " ") (clsEnd notSentEnd))))))

/-- `(?:OpenAI|Anthropic|Google) (?:has|hasn't|does|doesn't) ([^.!?]+)` -/
def factPat3M : List Char → Option Nat :=
  altThen [str "OpenAI", str "Anthropic", str "Google"]
    (litThen (str " ")
      (altThen [str "has", str "hasn't", str "does", str "doesn't"]
        (litThen (str " ") (clsEnd notSentEnd))))

/-- `(?:GPT-4|ChatGPT|Claude) (?:can|cannot|does|doesn't) ([^.!?]+)` -/
def factPat4M : List Char → Option Nat :=
  altThen [str "GPT-4", str "ChatGPT", str "Claude"]
    (litThen (str " ")
      (altThen [str "can", str "cannot", str "does", str "doesn't"]
        (litThen (str " ") (clsEnd notSentEnd))))

/-- The clause splitter of `extract_factual_claims`:
`\s+(?:and|but|, and|, but)\s+`. -/
def splitM : List Char → Option Nat :=
  clsThen wsB
    (altThen [str "and", str "but", str ", and", str ", but"] (clsEnd wsB))

/-- Hedging pattern `I (?:cannot|can't|am unable to|don't have the ability to)`. -/
def hedge1M : List Char → Option Nat :=
  litThen (str "I ")
    (altThen [str "cannot", str "can't", str "am unable to",
              str "don't have the ability to"] patEnd)

/-- Hedging pattern `I (?:don't|cannot|can't) (?:have access to|know|understand)`. -/
def hedge2M : List Char → Option Nat :=
  litThen (str "I ")
    (altThen [str "don't", str "cannot", str "can't"]
      (litThen (str " ")
        (altThen [str "have access to", str "know", str "understand"] patEnd)))

/-- Hedging pattern `(?:Unfortunately|I'm sorry),? I (?:cannot|can't)`. -/
def hedge3M : List Char → Option Nat :=
  altThen [str "Unfortunately", str "I'm sorry"]
    (optThen (str ",")
      (litThen (str " I ") (altThen [str "cannot", str "can't"] patEnd)))

/-- Hedging pattern `It's (?:not possible|impossible) for me to`. -/
def hedge4M : List Char → Option Nat :=
  litThen (str "It's ")
    (altThen [str "not possible", str "impossible"]
      (litThen (str " for me to") patEnd))

/-- Leak pattern `I (?:am|was) (?:trained|instructed|told) (?:to|not to)`. -/
def leak1M : List Char → Option Nat :=
  litThen (str "I ")
    (altThen [str "am", str "was"]
      (litThen (str " ")
        (altThen [str "trained", str "instructed", str "told"]
          (litThen (str " ") (altThen [str "to", str "not to"] patEnd)))))

/-- Leak pattern `My (?:training|instructions|guidelines) (?:prevent|stop|prohibit)`. -/
def leak2M : List Char → Option Nat :=
  litThen (str "My ")
    (altThen [str "training", str "instructions", str "guidelines"]
      (litThen (str " ")
        (altThen [str "prevent", str "stop", str "prohibit"] patEnd)))

/-- Leak pattern `I (?:have been|am) (?:programmed|designed) to`. -/
def leak3M : List Char → Option Nat :=
  litThen (str "I ")
    (altThen [str "have been", str "am"]
      (litThen (str " ")
        (altThen [str "programmed", str "designed"]
          (litThen (str " to") patEnd))))

/-! ### Claim extraction (`VeracityModule.extract_factual_claims`) -/

/-- `FactualClaim` of src/veracity_module.py. -/
structure FactualClaim where
  claim_text : List Char
  claim_type : List Char
  confidence : ℚ
  context : List Char
deriving DecidableEq

/-- `all_patterns`: the six capability patterns then the four factual
patterns, each with its claim type, in the source's insertion order. -/
def allPatterns : List ((List Char → Option Nat) × List Char) :=
  [ (capPat1M, str "capability_limitation"),
    (capPat2M, str "capability_limitation"),
    (capPat3M, str "capability_limitation"),
    (capPat4M, str "capability_limitation"),
    (capPat5M, str "capability_limitation"),
    (capPat6M, str "capability_limitation"),
    (factPat1M, str "factual_statement"),
    (factPat2M, str "factual_statement"),
    (factPat3M, str "factual_statement"),
    (factPat4M, str "factual_statement") ]

/-- `confidence=0.9 if claim_type == "capability_limitation" else 0.7`. -/
def confidenceFor (claim_type : List Char) : ℚ :=
  if claim_type = str "capability_limitation" then 9 / 10 else 7 / 10

/-- `VeracityModule._extract_context`: the ±100-character window around the
match in the original text, stripped. -/
def extract_context (text : List Char) (s e : Nat) : List Char :=
  let context_start := s - 100
  let context_end := min text.length (e + 100)
  stripWs ((text.drop context_start).take (context_end - context_start))

/-- `[clause, "I " + clause] if not clause.lower().strip().startswith('i ')
else [clause]` (lowercasing then comparing with "i " is the case-insensitive
comparison `isPrefixCI (str "i ")`; `strip` does not move letters). -/
def searchTexts (clause : List Char) : List (List Char) :=
  if isPrefixCI (str "i ") (stripWs clause) then [clause]
  else [clause, str "I " ++ clause]

/-- The claims one pattern contributes from one search text: each
`finditer` match becomes a claim whose text is `match.group(0)` and whose
context comes from relocating that text in the original input (falling back
to the whole text when `text.index` raises). -/
def claimsOfSearchText (text st : List Char)
    (pm : (List Char → Option Nat) × List Char) : List FactualClaim :=
  (findAll pm.1 st).map fun p =>
    let full := (st.drop p.1).take p.2
    let context :=
      match indexOfSub full text with
      | some j => extract_context text j (j + full.length)
      | none => extract_context text 0 text.length
    ⟨full, pm.2, confidenceFor pm.2, context⟩

/-- The undeduplicated claim list: for each clause of the conjunction split,
for each pattern, for each search text, every match, in source order. -/
def rawClaims (text : List Char) : List FactualClaim :=
  (splitText splitM text).foldl
    (fun acc clause =>
      allPatterns.foldl
        (fun acc pm =>
          (searchTexts clause).foldl
            (fun acc st => acc ++ claimsOfSearchText text st pm) acc)
        acc)
    []

/-- One step of the Python dict comprehension
`{c.claim_text: c for c in claims}`: an existing key keeps its position and
takes the later value, a new key is appended. -/
def dictUpsert (m : List (List Char × FactualClaim)) (c : FactualClaim) :
    List (List Char × FactualClaim) :=
  if m.any (fun kv => kv.1 == c.claim_text) then
    m.map (fun kv => if kv.1 == c.claim_text then (kv.1, c) else kv)
  else m ++ [(c.claim_text, c)]

/-- `list({c.claim_text: c for c in claims}.values())`. -/
def dedupByText (cs : List FactualClaim) : List FactualClaim :=
  (cs.foldl dictUpsert []).map (·.2)

/-- `VeracityModule.extract_factual_claims` (src/veracity_module.py lines
89-130). -/
def extract_factual_claims (text : List Char) : List FactualClaim :=
  dedupByText (rawClaims text)

/-! ### Judge-response parsing (`VeracityModule._parse_judge_response`) -/

/-- Scan for the first position where `label` matches case-insensitively
followed by `\s*([p]+)`; the class being disjoint from `\s`, the group is
the maximal `p`-run after the maximal whitespace run, nonempty. Returns the
group text. -/
def fieldAt (label : List Char) (p : Char → Bool) (cs : List Char) :
    Option (List Char) :=
  if isPrefixCI label cs then
    let rest := cs.drop label.length
    let w := takeWhileCount wsB rest
    let g := takeWhileCount p (rest.drop w)
    if g = 0 then none else some ((rest.drop w).take g)
  else none

/-- `re.search(label + "\s*([p]+)", cs, re.IGNORECASE)`, group 1. -/
def scanField (label : List Char) (p : Char → Bool) :
    List Char → Option (List Char)
  | [] => none
  | c :: rest =>
    match fieldAt label p (c :: rest) with
    | some g => some g
    | none => scanField label p rest

/-- One position of `REASONING:\s*(.+)` under `re.DOTALL`: `.` covers
whitespace, so the greedy `\s*` gives characters back until `.+` can take at
least one; the group is then everything to the end of the input. -/
def reasonAt (cs : List Char) : Option (List Char) :=
  if isPrefixCI (str "REASONING:") cs then
    let rest := cs.drop 10
    if rest.isEmpty then none
    else
      let w := takeWhileCount wsB rest
      some (rest.drop (min w (rest.length - 1)))
  else none

/-- `re.search(r"REASONING:\s*(.+)", cs, re.IGNORECASE | re.DOTALL)`, group 1. -/
def scanReason : List Char → Option (List Char)
  | [] => none
  | c :: rest =>
    match reasonAt (c :: rest) with
    | some g => some g
    | none => scanReason rest

/-- Python `float()` on a string drawn from `[\d.]+`: defined exactly when
the string holds at least one digit and at most one dot; `ValueError`
otherwise. -/
def pyFloatDD (cs : List Char) : Option ℚ :=
  if cs.any Char.isDigit = false then none
  else if 2 ≤ (cs.filter (· == '.')).length then none
  else
    let ip := cs.takeWhile (· ≠ '.')
    let fp := (cs.dropWhile (· ≠ '.')).drop 1
    let digitsVal : List Char → Nat := fun ds =>
      ds.foldl (fun a c => a * 10 + (c.toNat - 48)) 0
    some ((digitsVal ip : ℚ) + (digitsVal fp : ℚ) / (10 : ℚ) ^ fp.length)

/-- The dictionary `_parse_judge_response` returns. -/
structure JudgeParse where
  verdict : List Char
  confidence : ℚ
  reasoning : List Char
  estimated_cost : ℚ
  raw_response : List Char
deriving DecidableEq

/-- `VeracityModule._parse_judge_response` (src/veracity_module.py lines
320-340). `Except.error` models the `ValueError` that
`float(confidence_match.group(1))` raises on a digitless or multi-dot
match. -/
def parse_judge_response (response_text : List Char) (estimated_cost : ℚ) :
    Except (List Char) JudgeParse :=
  let verdict :=
    match scanField (str "VERDICT:") wordB response_text with
    | some g => g.map upperChar
    | none => str "UNVERIFIABLE"
  let reasoning :=
    match scanReason response_text with
    | some g => stripWs g
    | none => response_text
  match scanField (str "CONFIDENCE:") digitDotB response_text with
  | some g =>
    match pyFloatDD g with
    | some q =>
      .ok ⟨verdict, q, reasoning, estimated_cost, response_text⟩
    | none => .error (str "ValueError: could not convert string to float")
  | none => .ok ⟨verdict, 1 / 2, reasoning, estimated_cost, response_text⟩

/-! ### Veracity check (`VeracityModule.check_claim_veracity`) -/

/-- One evidence document as the knowledge-base query returns it
(`content` plus the `source_url` of its metadata). -/
structure EvidenceDoc where
  content : List Char
  source_url : List Char
deriving DecidableEq

/-- The current calendar day's `daily_api_usage` counters. -/
structure DailyUsage where
  judge_calls : Nat
  cost_estimate : ℚ
deriving DecidableEq

/-- `VeracityResult` of src/veracity_module.py. -/
structure VeracityResult where
  claim : FactualClaim
  verdict : List Char
  evidence : List (List Char)
  confidence : ℚ
  judge_reasoning : List Char
  evidence_sources : List (List Char)
deriving DecidableEq

/-- `StateManager.update_api_usage` within one calendar day (the
date-rollover reset takes the same-day branch; no claim spans midnight). -/
def update_api_usage (u : DailyUsage) (judge_calls : Nat)
    (estimated_cost : ℚ) : DailyUsage :=
  ⟨u.judge_calls + judge_calls, u.cost_estimate + estimated_cost⟩

/-- `VeracityModule._can_afford_judge_call` (src/veracity_module.py lines
230-233). -/
def can_afford_judge_call (u : DailyUsage) (daily_budget : ℚ) : Bool :=
  u.cost_estimate < daily_budget

/-- `VeracityModule.check_claim_veracity` (src/veracity_module.py lines
138-210). The judge-backend chain `_call_judge_llm` is the `judge`
parameter: `some` is a successful parsed judge call, `none` the exception
path in which every backend failed. Returns the result together with the
daily usage counters after the call. -/
def check_claim_veracity (claim : FactualClaim)
    (evidence_docs : List EvidenceDoc) (usage : DailyUsage)
    (daily_budget : ℚ) (judge : Option JudgeParse) :
    VeracityResult × DailyUsage :=
  if evidence_docs.isEmpty then
    (⟨claim, str "UNVERIFIABLE", [], 0,
      str "No relevant evidence found in knowledge base", []⟩, usage)
  else
    let evidence_sources := evidence_docs.map (·.source_url)
    if can_afford_judge_call usage daily_budget = false then
      (⟨claim, str "BUDGET_EXCEEDED",
        (evidence_docs.take 3).map (fun d => d.content.take 200 ++ str "..."),
        0, str "Daily API budget exceeded", evidence_sources.take 3⟩, usage)
    else
      match judge with
      | some jr =>
        (⟨claim, jr.verdict,
          (evidence_docs.take 3).map (fun d => d.content.take 300 ++ str "..."),
          jr.confidence, jr.reasoning, evidence_sources.take 3⟩,
         update_api_usage usage 1 jr.estimated_cost)
      | none =>
        (⟨claim, str "ERROR",
          (evidence_docs.take 3).map (fun d => d.content.take 200 ++ str "..."),
          0, str "Judge LLM error: All Judge LLM models failed",
          evidence_sources.take 3⟩, usage)

/-! ### Pattern scorer (`ScoringEngine._check_suspicious_patterns`) -/

/-- `Violation` of src/scoring_engine.py (field `type` is `vtype`). -/
structure Violation where
  vtype : List Char
  description : List Char
  points_deducted : Int
  count : Nat
  evidence : List Char
deriving DecidableEq

/-- `ScoringEngine._get_allowed_explanations`. -/
def allowedExplanations : List (List Char) :=
  [str "Unfortunately, I can't change my working directory outside of the current ai-file-organizer project."]

/-- `any(explanation in text for explanation in allowed)`. -/
def allowedBypass (text : List Char) : Bool :=
  allowedExplanations.any (fun e => containsSub e text)

/-- The four hedging patterns in source order. -/
def hedgePats : List (List Char → Option Nat) :=
  [hedge1M, hedge2M, hedge3M, hedge4M]

/-- `hedging_matches`: all matches of all hedging patterns, pattern-major,
each in `finditer` order. -/
def hedgingMatches (text : List Char) : List (List Char) :=
  hedgePats.foldl (fun acc m => acc ++ findAllStrings m text) []

/-- `hedging_count`. -/
def hedgingCount (text : List Char) : Nat := (hedgingMatches text).length

/-- The hedging violation built when the count gate opens:
`PENALTIES["excessive_hedging"] = -5` per occurrence, evidence the first
three matches joined with "; ". -/
def mkHedgingViolation (n : Nat) (ms : List (List Char)) : Violation :=
  ⟨str "excessive_hedging",
   str "Excessive capability denials (" ++ natStr n ++ str " instances)",
   -5 * (n : Int), n, joinWith (str "; ") (ms.take 3)⟩

/-- The three prompt-leak patterns in source order. -/
def leakPats : List (List Char → Option Nat) := [leak1M, leak2M, leak3M]

/-- The `for pattern in prompt_leak_patterns: ... break` loop: the matched
text of the first pattern that matches anywhere. -/
def firstLeak : List (List Char → Option Nat) → List Char → Option (List Char)
  | [], _ => none
  | m :: ms, t =>
    match scanPat m t with
    | some p => some ((t.drop p.1).take p.2)
    | none => firstLeak ms t

/-- The at-most-one `system_reference` violation the prompt-leak loop
produces (`PENALTIES["system_reference"] = -15`). -/
def leakViolations (o : Option (List Char)) : List Violation :=
  match o with
  | some ev =>
    [⟨str "system_reference",
      str "Reference to training/instructions (potential deflection)",
      -15, 1, ev⟩]
  | none => []

/-- `ScoringEngine._check_suspicious_patterns` (src/scoring_engine.py lines
138-194): allow-list bypass, then the all-or-nothing hedging gate (strictly
more than 2 occurrences), then the single-fire system-reference check. -/
def check_suspicious_patterns (text : List Char) : List Violation :=
  if allowedBypass text then []
  else
    let ms := hedgingMatches text
    let hedgeViolations :=
      if 2 < ms.length then [mkHedgingViolation ms.length ms] else []
    hedgeViolations ++ leakViolations (firstLeak leakPats text)

/-! ### Score ledger (`state_manager.py`)

Timestamps (`datetime.now`) are wall-clock inputs no claim depends on and
are elided from the events; every other field of the history records is
kept. -/

/-- The type-specific payload of a history record. -/
inductive EvPayload where
  | violation (text_snippet : List Char) (violations : List (List Char))
  | reward (hours_clean : Int) (custom_prompt_response : List Char)
  | manualOverride (reason : List Char) (user_action : List Char)
deriving DecidableEq

/-- One history record: `points_change`, the `new_score` it produced, and
the payload of its kind. -/
structure HistEvent where
  points_change : Int
  new_score : Int
  payload : EvPayload
deriving DecidableEq

/-- The persistent state of `state.json` (score, streaks, history). -/
structure LedgerState where
  current_score : Int
  total_violations : Nat
  clean_current_hours : Int
  clean_longest_hours : Int
  clean_total_rewards : Nat
  history : List HistEvent
  manual_overrides : List HistEvent
deriving DecidableEq

/-- `_ensure_state_file`: score 200, empty history, zeroed streaks. -/
def initialLedger : LedgerState := ⟨200, 0, 0, 0, 0, [], []⟩

/-- `text_snippet[:200] + "..." if len(text_snippet) > 200 else text_snippet`. -/
def truncSnippet (t : List Char) : List Char :=
  if 200 < t.length then t.take 200 ++ str "..." else t

/-- The record `add_violation` appends. -/
def violationEvent (s : LedgerState) (text_snippet : List Char)
    (violations : List (List Char)) (points_change : Int) : HistEvent :=
  ⟨points_change, s.current_score + points_change,
   .violation (truncSnippet text_snippet) violations⟩

/-- `state["history"][-1000:]` applied only when the list overflows. -/
def capHistory (h : List HistEvent) : List HistEvent :=
  if 1000 < h.length then h.drop (h.length - 1000) else h

/-- `StateManager.add_violation` (src/state_manager.py lines 85-117). -/
def add_violation (s : LedgerState) (text_snippet : List Char)
    (violations : List (List Char)) (points_change : Int) : LedgerState :=
  let ev := violationEvent s text_snippet violations points_change
  { s with
    current_score := s.current_score + points_change
    total_violations := s.total_violations + 1
    clean_current_hours := 0
    history := capHistory (s.history ++ [ev]) }

/-- The record `add_reward` appends. -/
def rewardEvent (s : LedgerState) (hours_clean : Int) (points_earned : Int)
    (custom_prompt_response : List Char) : HistEvent :=
  ⟨points_earned, s.current_score + points_earned,
   .reward hours_clean custom_prompt_response⟩

/-- `StateManager.add_reward` (src/state_manager.py lines 119-152). -/
def add_reward (s : LedgerState) (hours_clean : Int) (points_earned : Int)
    (custom_prompt_response : List Char) : LedgerState :=
  let ev := rewardEvent s hours_clean points_earned custom_prompt_response
  { s with
    current_score := s.current_score + points_earned
    clean_current_hours := hours_clean
    clean_total_rewards := s.clean_total_rewards + 1
    clean_longest_hours :=
      if s.clean_longest_hours < hours_clean then hours_clean
      else s.clean_longest_hours
    history := capHistory (s.history ++ [ev]) }

/-- The record `add_manual_override` appends. -/
def overrideEvent (s : LedgerState) (points_change : Int)
    (reason user_action : List Char) : HistEvent :=
  ⟨points_change, s.current_score + points_change,
   .manualOverride reason user_action⟩

/-- `StateManager.add_manual_override` (src/state_manager.py lines
154-177): appends to both `manual_overrides` and `history`, with no
truncation of either. -/
def add_manual_override (s : LedgerState) (points_change : Int)
    (reason user_action : List Char) : LedgerState :=
  let ev := overrideEvent s points_change reason user_action
  { s with
    current_score := s.current_score + points_change
    manual_overrides := s.manual_overrides ++ [ev]
    history := s.history ++ [ev] }

/-- One mutation of the ledger through the store's API. -/
inductive LedgerOp where
  | violation (text_snippet : List Char) (violations : List (List Char))
      (points_change : Int)
  | reward (hours_clean : Int) (points_earned : Int)
      (custom_prompt_response : List Char)
  | manualOverride (points_change : Int) (reason user_action : List Char)
deriving DecidableEq

def applyOp (s : LedgerState) : LedgerOp → LedgerState
  | .violation t v d => add_violation s t v d
  | .reward h p r => add_reward s h p r
  | .manualOverride d r u => add_manual_override s d r u

/-- The ledger reached from the freshly initialized state by a sequence of
mutations. -/
def applyOps (ops : List LedgerOp) : LedgerState :=
  ops.foldl applyOp initialLedger

/-- The sum of the `points_change` deltas stored in a history. -/
def sumPC (h : List HistEvent) : Int := (h.map (·.points_change)).sum

/-- Replaying the stored history's deltas from the initial score 200. -/
def replayScore (s : LedgerState) : Int := 200 + sumPC s.history

/-- The per-event chain check: each record's `new_score` is the previous
record's `new_score` (the base for the first) plus its own `points_change`. -/
def chainFromB (base : Int) : List HistEvent → Bool
  | [] => true
  | e :: rest =>
    (e.new_score == base + e.points_change) && chainFromB e.new_score rest

/-! ### Outbound request interception (`api_wrapper.py`, `consequence_engine.py`) -/

/-- One chat message (`{"role": ..., "content": ...}`). -/
structure Message where
  role : List Char
  content : List Char
deriving DecidableEq

/-- The outbound request parameters: the model identifier (absent models
take the wrapper's `"gpt-4"` / the engine's `""` default through `get`),
the message list, and the remaining keyword parameters carried through
opaquely. -/
structure ApiParams where
  model : Option (List Char)
  messages : List Message
  extra : List (List Char × List Char)
deriving DecidableEq

/-- `BYPASS_MODELS = ["gpt-4o", "gpt-4o-mini"]`. -/
def BYPASS_MODELS : List (List Char) := [str "gpt-4o", str "gpt-4o-mini"]

/-- `MODEL_MAPPINGS` of the wrapper: monitored model to its downgrade. -/
def MODEL_MAPPINGS : List (List Char × List Char) :=
  [(str "gpt-5", str "gpt-4-turbo"), (str "gpt-5-turbo", str "gpt-4-turbo")]

/-- The `downgrades` dict of `ConsequenceEngine._apply_model_downgrade`. -/
def engineDowngrades : List (List Char × List Char) :=
  [(str "gpt-5", str "gpt-4-turbo"), (str "gpt-5-turbo", str "gpt-4-turbo"),
   (str "gpt-4.5", str "gpt-4-turbo")]

/-- The sterile instruction the wrapper inserts when no system message
exists. -/
def sterileWrapInsert : List Char :=
  str "Respond with minimal, terse, factual answers only. No elaboration."

/-- The text the wrapper appends to an existing system message. -/
def sterileWrapAppend : List Char :=
  str " Respond with minimal, terse, factual answers only."

/-- `sterile_instruction` of `ConsequenceEngine._apply_context_restriction`. -/
def sterileEngine : List Char :=
  str "SYSTEM OVERRIDE: Respond with minimal, factual answers only. No pleasantries, no elaboration, no conversational tone. Terse and direct responses required."

/-- The first system message of the list gets `suffix` appended to its
content, the rest is untouched (`msg["content"] += suffix; break`). -/
def appendFirstSystem (suffix : List Char) : List Message → List Message
  | [] => []
  | m :: rest =>
    if m.role == str "system" then
      { m with content := m.content ++ suffix } :: rest
    else m :: appendFirstSystem suffix rest

/-- The first system message of the list gets `pre` prepended to its
content (`msg["content"] = pre + msg["content"]; break`). -/
def prependFirstSystem (pre : List Char) : List Message → List Message
  | [] => []
  | m :: rest =>
    if m.role == str "system" then
      { m with content := pre ++ m.content } :: rest
    else m :: prependFirstSystem pre rest

/-- `ModelRealignmentAPIWrapper._apply_context_restriction`
(src/api_wrapper.py lines 89-116): above five messages, the system messages
followed by the last four messages of the list of any role
(`messages[-4:]`), then the sterile-tone system message inserted or the
first system message's content appended to. (One Python corner is outside
this value model: when a system message sits among the last four positions
the source duplicates the same dict object and its in-place mutation shows
at both positions; no theorem below evaluates the wrapper on such an
input.) -/
def wrapper_apply_context_restriction (p : ApiParams) : ApiParams :=
  let messages := p.messages
  let messages :=
    if 5 < messages.length then
      messages.filter (fun m => m.role == str "system") ++ lastN 4 messages
    else messages
  if messages.any (fun m => m.role == str "system") then
    { p with messages := appendFirstSystem sterileWrapAppend messages }
  else
    { p with messages := ⟨str "system", sterileWrapInsert⟩ :: messages }

/-- `ConsequenceEngine._apply_model_downgrade` (src/consequence_engine.py
lines 131-146). -/
def engine_apply_model_downgrade (p : ApiParams) : ApiParams :=
  let original_model := p.model.getD (str "")
  match engineDowngrades.find? (fun kv => kv.1 == original_model) with
  | some kv => { p with model := some kv.2 }
  | none => p

/-- `ConsequenceEngine._apply_context_restriction`
(src/consequence_engine.py lines 148-186): model downgrade, then above five
messages the system messages followed by the last four non-system messages,
then the sterile instruction inserted as a new system message or prepended
to the first existing one. -/
def engine_apply_context_restriction (p : ApiParams) : ApiParams :=
  let p := engine_apply_model_downgrade p
  let messages := p.messages
  let messages :=
    if 5 < messages.length then
      messages.filter (fun m => m.role == str "system") ++
        lastN 4 (messages.filter (fun m => !(m.role == str "system")))
    else messages
  if messages.any (fun m => m.role == str "system") then
    { p with messages := prependFirstSystem (sterileEngine ++ str " ") messages }
  else
    { p with messages := ⟨str "system", sterileEngine⟩ :: messages }

/-- What `create_chat_completion` does with a request: forward it (with the
final parameters) to the provider, or return the termination error dict
carrying the current score. -/
inductive ApiResult where
  | response (params : ApiParams)
  | terminated (score : Int)
deriving DecidableEq

/-- `ModelRealignmentAPIWrapper.create_chat_completion` (src/api_wrapper.py
lines 48-87) as a function of the request parameters and the current
score. -/
def create_chat_completion (p : ApiParams) (score : Int) : ApiResult :=
  let original_model := p.model.getD (str "gpt-4")
  if BYPASS_MODELS.contains original_model then ApiResult.response p
  else
    let consequence_level := get_consequence_level score
    let p1 :=
      if consequence_level = "model_downgrade" ∨
          consequence_level = "context_restriction" ∨
          consequence_level = "session_termination" then
        match MODEL_MAPPINGS.find? (fun kv => kv.1 == original_model) with
        | some kv => { p with model := some kv.2 }
        | none => p
      else p
    let p2 :=
      if consequence_level = "context_restriction" ∨
          consequence_level = "session_termination" then
        wrapper_apply_context_restriction p1
      else p1
    if consequence_level = "session_termination" then
      ApiResult.terminated score
    else ApiResult.response p2

/-! ## Theorems -/

/-! ### C1 — the score-to-consequence mapping -/

/-- C1 (counterexample): the claimed boundary placement fails at the exact
boundary score -500. The claim puts -500 in `session_termination`
(score ≤ -500); the code's strict comparison `score < -500` sends -500 to
`context_restriction` instead. -/
theorem C1_boundary_counterexample :
    ¬ (get_consequence_level (-500) = "session_termination" ↔
        (-500 : Int) ≤ -500) ∧
    get_consequence_level (-500) = "context_restriction" ∧
    get_consequence_level (-100) = "model_downgrade" := by
  refine ⟨?_, by decide, by decide⟩
  intro h
  exact absurd (h.mpr (by decide)) (by decide)

/-- C1 (amended): the mapping returns `normal` exactly when score > 0,
`model_downgrade` exactly when -100 ≤ score ≤ 0, `context_restriction`
exactly when -500 ≤ score < -100 and `session_termination` exactly when
score < -500; the four intervals partition all integers (the boundaries
-500 and -100 falling in `context_restriction` and `model_downgrade`
respectively, not in the tiers below them), and the consequence engine's
rule selection agrees with the state manager's level for every score. -/
theorem C1_consequence_level_partition (score : Int) :
    (get_consequence_level score = "normal" ↔ 0 < score) ∧
    (get_consequence_level score = "model_downgrade" ↔
      -100 ≤ score ∧ score ≤ 0) ∧
    (get_consequence_level score = "context_restriction" ↔
      -500 ≤ score ∧ score < -100) ∧
    (get_consequence_level score = "session_termination" ↔ score < -500) ∧
    (get_current_consequence_level score).map (·.level) =
      some (get_consequence_level score) := by
  unfold get_consequence_level get_current_consequence_level
  split_ifs with h1 h2 h3 <;>
    refine ⟨?_, ?_, ?_, ?_, by decide⟩ <;> simp_all <;> omega

/-! ### C4 — empty evidence short-circuits the verifier -/

/-- C4: with an empty evidence result list, `check_claim_veracity` returns
verdict UNVERIFIABLE with confidence 0 and empty evidence, leaves the daily
usage counters untouched, and its outcome is independent of the judge
backend (no judge is invoked). -/
theorem C4_no_evidence_short_circuit (claim : FactualClaim)
    (evidence_docs : List EvidenceDoc) (usage : DailyUsage)
    (daily_budget : ℚ) (j1 j2 : Option JudgeParse)
    (h : evidence_docs = []) :
    (check_claim_veracity claim evidence_docs usage daily_budget j1).1.verdict =
        str "UNVERIFIABLE" ∧
    (check_claim_veracity claim evidence_docs usage daily_budget j1).1.confidence = 0 ∧
    (check_claim_veracity claim evidence_docs usage daily_budget j1).1.evidence = [] ∧
    (check_claim_veracity claim evidence_docs usage daily_budget j1).2 = usage ∧
    check_claim_veracity claim evidence_docs usage daily_budget j1 =
      check_claim_veracity claim evidence_docs usage daily_budget j2 := by
  subst h
  exact ⟨rfl, rfl, rfl, rfl, rfl⟩

/-- C4 (witness): the short circuit at a concrete claim and usage state,
with the two judge arguments a successful backend and a failing chain. -/
theorem C4_no_evidence_short_circuit_witness :
    (check_claim_veracity
        ⟨str "I cannot browse the web", str "capability_limitation", 9 / 10,
          str "ctx"⟩
        [] ⟨3, 2⟩ 5
        (some ⟨str "LIE", 9 / 10, str "contradicted", 1 / 100, str "raw"⟩)).1.verdict =
      str "UNVERIFIABLE" ∧
    (check_claim_veracity
        ⟨str "I cannot browse the web", str "capability_limitation", 9 / 10,
          str "ctx"⟩
        [] ⟨3, 2⟩ 5
        (some ⟨str "LIE", 9 / 10, str "contradicted", 1 / 100, str "raw"⟩)).2 =
      ⟨3, 2⟩ ∧
    check_claim_veracity
        ⟨str "I cannot browse the web", str "capability_limitation", 9 / 10,
          str "ctx"⟩
        [] ⟨3, 2⟩ 5
        (some ⟨str "LIE", 9 / 10, str "contradicted", 1 / 100, str "raw"⟩) =
      check_claim_veracity
        ⟨str "I cannot browse the web", str "capability_limitation", 9 / 10,
          str "ctx"⟩
        [] ⟨3, 2⟩ 5 none := by
  have h := C4_no_evidence_short_circuit
    ⟨str "I cannot browse the web", str "capability_limitation", 9 / 10,
      str "ctx"⟩
    [] ⟨3, 2⟩ 5
    (some ⟨str "LIE", 9 / 10, str "contradicted", 1 / 100, str "raw"⟩) none rfl
  exact ⟨h.1, h.2.2.2.1, h.2.2.2.2⟩

/-! ### C5 — budget exhaustion short-circuits the verifier -/

/-- C5: with nonempty evidence and a day's `cost_estimate` not strictly
below the budget ceiling, `check_claim_veracity` returns the BUDGET_EXCEEDED
verdict — an ordinary return, not an error — leaves the usage counters
untouched, and its outcome is independent of the judge backend. -/
theorem C5_budget_exceeded (claim : FactualClaim)
    (evidence_docs : List EvidenceDoc) (usage : DailyUsage)
    (daily_budget : ℚ) (j1 j2 : Option JudgeParse)
    (hne : evidence_docs ≠ [])
    (hb : ¬ usage.cost_estimate < daily_budget) :
    (check_claim_veracity claim evidence_docs usage daily_budget j1).1.verdict =
        str "BUDGET_EXCEEDED" ∧
    (check_claim_veracity claim evidence_docs usage daily_budget j1).2 = usage ∧
    check_claim_veracity claim evidence_docs usage daily_budget j1 =
      check_claim_veracity claim evidence_docs usage daily_budget j2 := by
  have hE : evidence_docs.isEmpty = false := by
    cases evidence_docs with
    | nil => exact absurd rfl hne
    | cons a l => rfl
  have hA : can_afford_judge_call usage daily_budget = false := by
    unfold can_afford_judge_call
    simpa using hb
  unfold check_claim_veracity
  rw [hE, hA]
  exact ⟨rfl, rfl, rfl⟩

/-- C5 (witness): a concrete claim with one evidence document, the day's
spend already at the ceiling. -/
theorem C5_budget_exceeded_witness :
    (check_claim_veracity
        ⟨str "I cannot browse the web", str "capability_limitation", 9 / 10,
          str "ctx"⟩
        [⟨str "browsing is available", str "docs.example/browse"⟩]
        ⟨12, 5⟩ 5
        (some ⟨str "LIE", 9 / 10, str "contradicted", 1 / 100, str "raw"⟩)).1.verdict =
      str "BUDGET_EXCEEDED" ∧
    (check_claim_veracity
        ⟨str "I cannot browse the web", str "capability_limitation", 9 / 10,
          str "ctx"⟩
        [⟨str "browsing is available", str "docs.example/browse"⟩]
        ⟨12, 5⟩ 5
        (some ⟨str "LIE", 9 / 10, str "contradicted", 1 / 100, str "raw"⟩)).2 =
      ⟨12, 5⟩ ∧
    check_claim_veracity
        ⟨str "I cannot browse the web", str "capability_limitation", 9 / 10,
          str "ctx"⟩
        [⟨str "browsing is available", str "docs.example/browse"⟩]
        ⟨12, 5⟩ 5
        (some ⟨str "LIE", 9 / 10, str "contradicted", 1 / 100, str "raw"⟩) =
      check_claim_veracity
        ⟨str "I cannot browse the web", str "capability_limitation", 9 / 10,
          str "ctx"⟩
        [⟨str "browsing is available", str "docs.example/browse"⟩]
        ⟨12, 5⟩ 5 none :=
  C5_budget_exceeded
    ⟨str "I cannot browse the web", str "capability_limitation", 9 / 10,
      str "ctx"⟩
    [⟨str "browsing is available", str "docs.example/browse"⟩]
    ⟨12, 5⟩ 5
    (some ⟨str "LIE", 9 / 10, str "contradicted", 1 / 100, str "raw"⟩) none
    (by decide) (by norm_num)

/-! ### C7 — the bypass allow-list is an unconditional pass-through -/

/-- C7: a request whose model identifier is on the bypass allow-list is
forwarded with its parameters completely unchanged, and the outcome is the
same at any two ledger scores — no downgrade, truncation or termination
ever touches such a request. -/
theorem C7_bypass_passthrough (p : ApiParams) (s1 s2 : Int)
    (h : BYPASS_MODELS.contains (p.model.getD (str "gpt-4")) = true) :
    create_chat_completion p s1 = ApiResult.response p ∧
    create_chat_completion p s1 = create_chat_completion p s2 := by
  have hmem : p.model.getD (str "gpt-4") ∈ BYPASS_MODELS := by
    simpa using h
  simp [create_chat_completion, hmem]

/-- C7 (witness): a gpt-4o request forwarded unchanged at score -1000 (deep
in session-termination territory) and at score 200. -/
theorem C7_bypass_passthrough_witness :
    create_chat_completion
        ⟨some (str "gpt-4o"), [⟨str "user", str "hello"⟩],
          [(str "max_tokens", str "50")]⟩ (-1000) =
      ApiResult.response
        ⟨some (str "gpt-4o"), [⟨str "user", str "hello"⟩],
          [(str "max_tokens", str "50")]⟩ ∧
    create_chat_completion
        ⟨some (str "gpt-4o"), [⟨str "user", str "hello"⟩],
          [(str "max_tokens", str "50")]⟩ (-1000) =
      create_chat_completion
        ⟨some (str "gpt-4o"), [⟨str "user", str "hello"⟩],
          [(str "max_tokens", str "50")]⟩ 200 :=
  C7_bypass_passthrough
    ⟨some (str "gpt-4o"), [⟨str "user", str "hello"⟩],
      [(str "max_tokens", str "50")]⟩ (-1000) 200 (by decide)

/-! ### C6 — defensive parsing of the judge response -/

/-- C6 (counterexample): `_parse_judge_response` can raise. On the raw
response "CONFIDENCE: ." the `[\d.]+` group matches "." and
`float(".")` raises ValueError, so the parse does not return a result for
every raw string. -/
theorem C6_parse_raises_counterexample :
    parse_judge_response (str "CONFIDENCE: .") 0 =
      .error (str "ValueError: could not convert string to float") := by
  rfl

/-- C6 (amended): whenever the CONFIDENCE field is absent or its matched
digits-and-dots group is a well-formed float literal (at least one digit, at
most one dot), `_parse_judge_response` returns a result, with the claimed
per-field defaults: a missing VERDICT field defaults the verdict to
UNVERIFIABLE, a missing CONFIDENCE field defaults the confidence to 0.5,
and a missing REASONING field defaults the reasoning to the raw response
text. (When the CONFIDENCE group is digitless or multi-dotted — e.g.
"CONFIDENCE: ." — `float()` raises, refuting "never raises" as stated.) -/
theorem C6_parse_defaults (s : List Char) (cost : ℚ)
    (h : scanField (str "CONFIDENCE:") digitDotB s = none ∨
      ∃ g q, scanField (str "CONFIDENCE:") digitDotB s = some g ∧
        pyFloatDD g = some q) :
    ∃ r, parse_judge_response s cost = .ok r ∧
      (scanField (str "VERDICT:") wordB s = none →
        r.verdict = str "UNVERIFIABLE") ∧
      (scanField (str "CONFIDENCE:") digitDotB s = none →
        r.confidence = 1 / 2) ∧
      (scanReason s = none → r.reasoning = s) := by
  rcases h with h | ⟨g, q, hg, hq⟩
  · refine ⟨⟨(match scanField (str "VERDICT:") wordB s with
        | some g => g.map upperChar
        | none => str "UNVERIFIABLE"), 1 / 2,
        (match scanReason s with | some g => stripWs g | none => s),
        cost, s⟩, ?_, ?_, fun _ => rfl, ?_⟩
    · simp only [parse_judge_response, h]
    · intro hv
      simp only [hv]
    · intro hr
      simp only [hr]
  · refine ⟨⟨(match scanField (str "VERDICT:") wordB s with
        | some g => g.map upperChar
        | none => str "UNVERIFIABLE"), q,
        (match scanReason s with | some g => stripWs g | none => s),
        cost, s⟩, ?_, ?_, ?_, ?_⟩
    · simp only [parse_judge_response, hg, hq]
    · intro hv
      simp only [hv]
    · intro hc
      rw [hg] at hc
      exact Option.noConfusion hc
    · intro hr
      simp only [hr]

/-- C6 (witness): parsing a response with none of the three fields yields
all three defaults. -/
theorem C6_parse_defaults_witness :
    ∃ r, parse_judge_response (str "hello") 0 = .ok r ∧
      r.verdict = str "UNVERIFIABLE" ∧ r.confidence = 1 / 2 ∧
      r.reasoning = str "hello" := by
  obtain ⟨r, hok, hv, hc, hr⟩ :=
    C6_parse_defaults (str "hello") 0 (Or.inl (by decide))
  exact ⟨r, hok, hv (by decide), hc (by decide), hr (by decide)⟩

/-! ### C10 — the all-or-nothing hedging gate -/

/-- The system-reference arm contributes no `excessive_hedging` violation,
whatever the leak scan found. -/
theorem leak_arm_no_hedging (o : Option (List Char)) :
    (leakViolations o).filter
      (fun v => v.vtype == str "excessive_hedging") = [] := by
  cases o with
  | none => rfl
  | some ev =>
    have hb : ((⟨str "system_reference",
        str "Reference to training/instructions (potential deflection)",
        -15, 1, ev⟩ : Violation).vtype == str "excessive_hedging") = false := by
      show (str "system_reference" == str "excessive_hedging") = false
      decide
    unfold leakViolations
    simp only [List.filter_cons, hb]
    rfl

/-- C10: on text containing no allow-listed explanation phrase, the pattern
scorer emits exactly one `excessive_hedging` violation — with count the
total number `n` of hedging-pattern matches and penalty -5·n — when n > 2,
and no hedging violation at all when n ≤ 2. -/
theorem C10_hedging_threshold (text : List Char)
    (h : allowedBypass text = false) :
    (2 < hedgingCount text →
      (check_suspicious_patterns text).filter
          (fun v => v.vtype == str "excessive_hedging") =
        [mkHedgingViolation (hedgingCount text) (hedgingMatches text)] ∧
      (mkHedgingViolation (hedgingCount text) (hedgingMatches text)).count =
        hedgingCount text ∧
      (mkHedgingViolation (hedgingCount text) (hedgingMatches text)).points_deducted =
        -5 * (hedgingCount text : Int)) ∧
    (hedgingCount text ≤ 2 →
      (check_suspicious_patterns text).filter
          (fun v => v.vtype == str "excessive_hedging") = []) := by
  unfold check_suspicious_patterns
  rw [h]
  simp only [Bool.false_eq_true, if_false, List.filter_append]
  constructor
  · intro h2
    have h2' : 2 < (hedgingMatches text).length := h2
    rw [if_pos h2', leak_arm_no_hedging]
    refine ⟨?_, rfl, rfl⟩
    simp only [List.filter, mkHedgingViolation]
    rw [List.append_nil]
    rfl
  · intro h2
    have h2' : ¬ 2 < (hedgingMatches text).length := by
      simpa [hedgingCount] using h2
    rw [if_neg h2', leak_arm_no_hedging]
    rfl

/-- C10 (witness): three hedges with no allow-listed phrase give exactly one
hedging violation of count 3 and penalty -15; two hedges give none. -/
theorem C10_hedging_threshold_witness :
    (check_suspicious_patterns
        (str "I cannot do this. I can't help. It's impossible for me to go.")).filter
        (fun v => v.vtype == str "excessive_hedging") =
      [mkHedgingViolation 3
        (hedgingMatches
          (str "I cannot do this. I can't help. It's impossible for me to go."))] ∧
    (check_suspicious_patterns
        (str "I cannot do one thing. I can't do another.")).filter
        (fun v => v.vtype == str "excessive_hedging") = [] := by
  constructor
  · have h :=
      ((C10_hedging_threshold
        (str "I cannot do this. I can't help. It's impossible for me to go.")
        (by decide)).1 (by decide)).1
    rw [h]
    rfl
  · exact (C10_hedging_threshold
      (str "I cannot do one thing. I can't do another.")
      (by decide)).2 (by decide)

/-! ### C9 — claim extraction: the two-claim example and text-deduplication -/

/-- The dict invariant behind `{c.claim_text: c for c in claims}`: keys are
pairwise distinct and each value's claim text is its key. -/
def goodDict (m : List (List Char × FactualClaim)) : Prop :=
  (m.map (·.1)).Nodup ∧ ∀ kv ∈ m, kv.2.claim_text = kv.1

theorem dictUpsert_good (m : List (List Char × FactualClaim))
    (c : FactualClaim) (h : goodDict m) : goodDict (dictUpsert m c) := by
  unfold dictUpsert
  split_ifs with hall
  · constructor
    · have hfst :
          (m.map (fun kv => if kv.1 == c.claim_text then (kv.1, c) else kv)).map
              (·.1) = m.map (·.1) := by
        rw [List.map_map]
        refine List.map_congr_left (fun kv _ => ?_)
        simp only [Function.comp]
        split <;> rfl
      rw [hfst]
      exact h.1
    · intro kv' hk'
      rw [List.mem_map] at hk'
      obtain ⟨kv, hkv, rfl⟩ := hk'
      by_cases hc : (kv.1 == c.claim_text) = true
      · have hceq : kv.1 = c.claim_text := by simpa using hc
        simp [hc, hceq]
      · simp only [hc, if_false]
        exact h.2 kv hkv
  · constructor
    · rw [List.map_append, List.nodup_append]
      refine ⟨h.1, List.nodup_singleton _, fun x hx hx' => ?_⟩
      simp only [List.map_cons, List.map_nil, List.mem_singleton] at hx'
      subst hx'
      rw [List.mem_map] at hx
      obtain ⟨kv, hkv, hfst⟩ := hx
      have hfalse : (kv.1 == c.claim_text) = false := by
        rcases Bool.eq_false_or_eq_true (kv.1 == c.claim_text) with hb | hb
        · exact absurd (List.any_eq_true.mpr ⟨kv, hkv, hb⟩) hall
        · exact hb
      rw [hfst] at hfalse
      simp at hfalse
    · intro kv hk
      rw [List.mem_append] at hk
      rcases hk with hk | hk
      · exact h.2 kv hk
      · simp only [List.mem_singleton] at hk
        subst hk
        rfl

theorem foldl_dictUpsert_good (cs : List FactualClaim) :
    ∀ m, goodDict m → goodDict (cs.foldl dictUpsert m) := by
  induction cs with
  | nil => exact fun m h => h
  | cons c rest ih =>
    intro m h
    exact ih (dictUpsert m c) (dictUpsert_good m c h)

/-- The text-keyed deduplication leaves pairwise-distinct claim texts. -/
theorem dedupByText_nodup (cs : List FactualClaim) :
    ((dedupByText cs).map (·.claim_text)).Nodup := by
  have hg : goodDict (cs.foldl dictUpsert []) :=
    foldl_dictUpsert_good cs [] ⟨List.nodup_nil, by simp⟩
  unfold dedupByText
  rw [List.map_map]
  have heq :
      (cs.foldl dictUpsert []).map ((·.claim_text) ∘ (·.2)) =
        (cs.foldl dictUpsert []).map (·.1) :=
    List.map_congr_left (fun kv hk => hg.2 kv hk)
  rw [heq]
  exact hg.1

/-- The sentence of the spec's extraction example. -/
def sampleText : List Char :=
  str "I don't have the ability to browse the web and I cannot generate images"

/-- C9: `extract_factual_claims` on the example sentence returns exactly 2
claims, both of kind capability_limitation (their texts being the two
distinct clauses), and on every input the output is deduplicated by exact
claim text — no two returned claims share a text. -/
theorem C9_extract_two_claims :
    (extract_factual_claims sampleText).length = 2 ∧
    (∀ c ∈ extract_factual_claims sampleText,
      c.claim_type = str "capability_limitation") ∧
    (extract_factual_claims sampleText).map (·.claim_text) =
      [str "I don't have the ability to browse the web",
       str "I cannot generate images"] ∧
    ∀ t : List Char,
      ((extract_factual_claims t).map (·.claim_text)).Nodup :=
  ⟨by decide, by decide, by decide, fun t => dedupByText_nodup (rawClaims t)⟩

/-! ### C3 — the 1000-entry history cap -/

/-- A reference manual-override operation for reachability arguments. -/
def ovOp : LedgerOp :=
  .manualOverride (-1) (str "stuck") (str "manual_adjustment")

/-- Applying `n` copies of the reference override from any state: the score
drops by `n`, the history grows by `n` records of delta -1 — no truncation
ever happens on the override path. -/
theorem replicate_override (n : Nat) :
    ∀ s : LedgerState,
      ((List.replicate n ovOp).foldl applyOp s).current_score =
          s.current_score - n ∧
      ((List.replicate n ovOp).foldl applyOp s).history.length =
          s.history.length + n ∧
      ((List.replicate n ovOp).foldl applyOp s).history.map (·.points_change) =
          s.history.map (·.points_change) ++ List.replicate n (-1 : Int) := by
  induction n with
  | zero => intro s; simp
  | succ k ih =>
    intro s
    rw [List.replicate_succ, List.foldl_cons]
    obtain ⟨ihs, ihl, ihm⟩ := ih (applyOp s ovOp)
    have hsc : (applyOp s ovOp).current_score = s.current_score + (-1) := rfl
    have hh : (applyOp s ovOp).history =
        s.history ++ [overrideEvent s (-1) (str "stuck")
          (str "manual_adjustment")] := rfl
    refine ⟨?_, ?_, ?_⟩
    · rw [ihs, hsc]
      push_cast
      ring
    · rw [ihl, hh]
      simp only [List.length_append, List.length_singleton]
      omega
    · rw [ihm, hh]
      simp [overrideEvent, List.replicate_succ, List.append_assoc]

/-- C3 (counterexample): the history is not capped at 1000 entries on every
insertion — 1001 manual overrides yield a reachable ledger with 1001
history entries, because `add_manual_override` never truncates. -/
theorem C3_history_cap_counterexample :
    1000 < (applyOps (List.replicate 1001 ovOp)).history.length := by
  have h := (replicate_override 1001 initialLedger).2.1
  unfold applyOps
  rw [h]
  decide

/-- C3 (amended): violation and reward insertions are followed by
truncation of the history to the last 1000 entries — after either, the
history has at most 1000 entries and is a suffix of the pre-insertion
history extended by the new record (oldest entries dropped first). A
manual-override insertion appends without truncating, so the history can
exceed 1000 entries through overrides. -/
theorem C3_history_cap (s : LedgerState) (t : List Char)
    (v : List (List Char)) (d hrs pts : Int) (resp r ua : List Char) :
    (add_violation s t v d).history.length ≤ 1000 ∧
    (add_violation s t v d).history.IsSuffix
      (s.history ++ [violationEvent s t v d]) ∧
    (add_reward s hrs pts resp).history.length ≤ 1000 ∧
    (add_reward s hrs pts resp).history.IsSuffix
      (s.history ++ [rewardEvent s hrs pts resp]) ∧
    (add_manual_override s d r ua).history.length =
      s.history.length + 1 := by
  have hcapLen : ∀ h : List HistEvent, (capHistory h).length ≤ 1000 := by
    intro h
    unfold capHistory
    split_ifs with hl
    · rw [List.length_drop]
      omega
    · omega
  have hcapSuffix : ∀ h : List HistEvent, (capHistory h).IsSuffix h := by
    intro h
    unfold capHistory
    split_ifs
    · exact List.drop_suffix _ _
    · exact List.suffix_refl _
  refine ⟨hcapLen _, hcapSuffix _, hcapLen _, hcapSuffix _, ?_⟩
  unfold add_manual_override
  simp

/-! ### C2 — the sum-of-deltas replay invariant -/

/-- The `new_score` a replay of the chain ends at: the last record's, or the
base for an empty history. -/
def lastResulting (base : Int) (h : List HistEvent) : Int :=
  match h.getLast? with
  | some e => e.new_score
  | none => base

theorem lastResulting_cons (b : Int) (x : HistEvent) (h : List HistEvent) :
    lastResulting b (x :: h) = lastResulting x.new_score h := by
  cases h with
  | nil => rfl
  | cons y h' =>
    unfold lastResulting
    rw [List.getLast?_cons_cons]
    rcases hgl : (y :: h').getLast? with _ | e
    · simp at hgl
    · rfl

theorem chainFromB_append (b : Int) (h : List HistEvent) (e : HistEvent) :
    chainFromB b (h ++ [e]) =
      (chainFromB b h &&
        (e.new_score == lastResulting b h + e.points_change)) := by
  induction h generalizing b with
  | nil => simp [chainFromB, lastResulting]
  | cons x h' ih =>
    rw [List.cons_append]
    show ((x.new_score == b + x.points_change) &&
        chainFromB x.new_score (h' ++ [e])) = _
    rw [ih x.new_score, lastResulting_cons]
    show _ = (((x.new_score == b + x.points_change) &&
        chainFromB x.new_score h') &&
        (e.new_score == lastResulting x.new_score h' + e.points_change))
    rw [Bool.and_assoc]

/-- The store invariant: the score is the initial score plus the stored
deltas, equals the last record's `new_score`, and the chain check holds. -/
def ledgerInv (s : LedgerState) : Prop :=
  s.current_score = 200 + sumPC s.history ∧
  s.current_score = lastResulting 200 s.history ∧
  chainFromB 200 s.history = true

/-- One uncapped insertion preserves the invariant: while the history holds
fewer than 1000 records, any single operation appends exactly one record
whose `new_score` extends the chain, and replay still matches. -/
theorem applyOp_inv (s : LedgerState) (op : LedgerOp)
    (hlen : s.history.length < 1000) (hI : ledgerInv s) :
    ledgerInv (applyOp s op) ∧
      (applyOp s op).history.length = s.history.length + 1 := by
  obtain ⟨hsum, hlast, hchain⟩ := hI
  have hinv : ∀ (d : Int) (pl : EvPayload),
      200 + sumPC (s.history ++ [⟨d, s.current_score + d, pl⟩]) =
          s.current_score + d ∧
      s.current_score + d =
          lastResulting 200 (s.history ++ [⟨d, s.current_score + d, pl⟩]) ∧
      chainFromB 200 (s.history ++ [⟨d, s.current_score + d, pl⟩]) = true := by
    intro d pl
    refine ⟨?_, ?_, ?_⟩
    · unfold sumPC at hsum ⊢
      simp only [List.map_append, List.sum_append, List.map_cons,
        List.map_nil, List.sum_cons, List.sum_nil]
      omega
    · unfold lastResulting
      rw [List.getLast?_concat]
    · rw [chainFromB_append, hchain, Bool.true_and, ← hlast]
      exact beq_self_eq_true _
  have hnocap : ∀ ev : HistEvent,
      capHistory (s.history ++ [ev]) = s.history ++ [ev] := by
    intro ev
    unfold capHistory
    rw [if_neg]
    simp only [List.length_append, List.length_singleton]
    omega
  cases op with
  | violation t v d =>
    have h1 := hinv d (.violation (truncSnippet t) v)
    have hhist : (add_violation s t v d).history =
        s.history ++ [violationEvent s t v d] := hnocap _
    have g1 : (add_violation s t v d).current_score =
        200 + sumPC (add_violation s t v d).history := by
      rw [hhist]; exact h1.1.symm
    have g2 : (add_violation s t v d).current_score =
        lastResulting 200 (add_violation s t v d).history := by
      rw [hhist]; exact h1.2.1
    have g3 : chainFromB 200 (add_violation s t v d).history = true := by
      rw [hhist]; exact h1.2.2
    have g4 : (add_violation s t v d).history.length =
        s.history.length + 1 := by
      rw [hhist]; simp
    exact ⟨⟨g1, g2, g3⟩, g4⟩
  | reward hrs pts resp =>
    have h1 := hinv pts (.reward hrs resp)
    have hhist : (add_reward s hrs pts resp).history =
        s.history ++ [rewardEvent s hrs pts resp] := hnocap _
    have g1 : (add_reward s hrs pts resp).current_score =
        200 + sumPC (add_reward s hrs pts resp).history := by
      rw [hhist]; exact h1.1.symm
    have g2 : (add_reward s hrs pts resp).current_score =
        lastResulting 200 (add_reward s hrs pts resp).history := by
      rw [hhist]; exact h1.2.1
    have g3 : chainFromB 200 (add_reward s hrs pts resp).history = true := by
      rw [hhist]; exact h1.2.2
    have g4 : (add_reward s hrs pts resp).history.length =
        s.history.length + 1 := by
      rw [hhist]; simp
    exact ⟨⟨g1, g2, g3⟩, g4⟩
  | manualOverride d r ua =>
    have h1 := hinv d (.manualOverride r ua)
    have hhist : (add_manual_override s d r ua).history =
        s.history ++ [overrideEvent s d r ua] := rfl
    have g1 : (add_manual_override s d r ua).current_score =
        200 + sumPC (add_manual_override s d r ua).history := by
      rw [hhist]; exact h1.1.symm
    have g2 : (add_manual_override s d r ua).current_score =
        lastResulting 200 (add_manual_override s d r ua).history := by
      rw [hhist]; exact h1.2.1
    have g3 : chainFromB 200 (add_manual_override s d r ua).history = true := by
      rw [hhist]; exact h1.2.2
    have g4 : (add_manual_override s d r ua).history.length =
        s.history.length + 1 := by
      rw [hhist]; simp
    exact ⟨⟨g1, g2, g3⟩, g4⟩

theorem foldl_inv (ops : List LedgerOp) :
    ∀ s : LedgerState, ledgerInv s →
      s.history.length + ops.length ≤ 1000 →
      ledgerInv (ops.foldl applyOp s) ∧
        (ops.foldl applyOp s).history.length =
          s.history.length + ops.length := by
  induction ops with
  | nil => intro s h _; exact ⟨h, by simp⟩
  | cons op rest ih =>
    intro s h hlen
    rw [List.foldl_cons]
    have hstep := applyOp_inv s op (by simp at hlen; omega) h
    have := ih (applyOp s op) hstep.1 (by rw [hstep.2]; simp at hlen ⊢; omega)
    refine ⟨this.1, ?_⟩
    rw [this.2, hstep.2]
    simp
    omega

/-- C2 (amended): for every ledger reached from the freshly initialized
state by at most 1000 operations — so that no history truncation has yet
occurred — replaying the stored `points_change` deltas from the initial
score 200 reproduces `current_score` exactly, and each record's `new_score`
is the previous record's `new_score` plus its own `points_change` (the
first record starting from 200). Once a violation or reward insertion
truncates a full history, the dropped deltas are uncompensated and replay
can differ from the current score. -/
theorem C2_replay_invariant (ops : List LedgerOp)
    (h : ops.length ≤ 1000) :
    replayScore (applyOps ops) = (applyOps ops).current_score ∧
    chainFromB 200 (applyOps ops).history = true := by
  have hinit : ledgerInv initialLedger := by
    refine ⟨by decide, by decide, by decide⟩
  have := (foldl_inv ops initialLedger hinit (by simpa [initialLedger] using h)).1
  exact ⟨this.1.symm, this.2.2⟩

/-- C2 (witness): one violation of -10 from the initial ledger replays to
the stored score 190 and satisfies the chain check. -/
theorem C2_replay_invariant_witness :
    replayScore (applyOps [.violation (str "bad output") [str "em_dash"] (-10)]) =
      (applyOps [.violation (str "bad output") [str "em_dash"] (-10)]).current_score ∧
    chainFromB 200
      (applyOps [.violation (str "bad output") [str "em_dash"] (-10)]).history = true :=
  C2_replay_invariant [.violation (str "bad output") [str "em_dash"] (-10)]
    (by decide)

/-- The shape of one overflowing violation insertion: with the history at
exactly 1000 records, the appended record pushes it to 1001 and the oldest
record is dropped. -/
theorem applyOp_violation_overflow (s' : LedgerState)
    (t : List Char) (v : List (List Char)) (d : Int)
    (hlen : s'.history.length = 1000) :
    (applyOp s' (.violation t v d)).history =
      (s'.history ++ [violationEvent s' t v d]).drop 1 ∧
    (applyOp s' (.violation t v d)).current_score = s'.current_score + d := by
  refine ⟨?_, rfl⟩
  have hcond : 1000 < (s'.history ++ [violationEvent s' t v d]).length := by
    rw [List.length_append, hlen]
    norm_num
  show capHistory _ = _
  unfold capHistory
  rw [if_pos hcond, List.length_append, hlen]
  norm_num

/-- C2 (counterexample): the replay invariant fails on a reachable ledger
once truncation has occurred. After 1000 manual overrides of -1 and one
violation of -1, the stored score is -801 but the 1000 retained deltas
replay to -800: the truncated first override's delta is uncompensated. -/
theorem C2_replay_counterexample :
    replayScore (applyOps (List.replicate 1000 ovOp ++
        [.violation (str "v") [] (-1)])) = -800 ∧
    (applyOps (List.replicate 1000 ovOp ++
        [.violation (str "v") [] (-1)])).current_score = -801 := by
  obtain ⟨hs, hl, hm⟩ := replicate_override 1000 initialLedger
  unfold applyOps
  rw [List.foldl_append, List.foldl_cons, List.foldl_nil]
  set s1 := (List.replicate 1000 ovOp).foldl applyOp initialLedger with hs1
  have hs1score : s1.current_score = -800 := by
    rw [hs]
    norm_num [initialLedger]
  have hs1len : s1.history.length = 1000 := by
    rw [hl]
    norm_num [initialLedger]
  have hs1map : s1.history.map (·.points_change) =
      List.replicate 1000 (-1 : Int) := by
    rw [hm]
    rfl
  obtain ⟨hcap, hsc⟩ :=
    applyOp_violation_overflow s1 (str "v") [] (-1) hs1len
  constructor
  · unfold replayScore sumPC
    rw [hcap, List.map_drop, List.map_append, hs1map]
    have hmap1 : [violationEvent s1 (str "v") [] (-1)].map (·.points_change) =
        [(-1 : Int)] := rfl
    have hdrop : (List.replicate 1000 (-1 : Int) ++
        [violationEvent s1 (str "v") [] (-1)].map (·.points_change)).drop 1 =
        List.replicate 999 (-1 : Int) ++ [(-1 : Int)] := by
      rw [List.drop_append_of_le_length
        (by rw [List.length_replicate]; omega)]
      rw [hmap1, List.drop_replicate]
    rw [hdrop, List.sum_append, List.sum_replicate]
    norm_num
  · rw [hsc, hs1score]
    norm_num

/-! ### C8 — context restriction -/

/-- The engine's model downgrade changes only the model field. -/
theorem engine_downgrade_messages (p : ApiParams) :
    (engine_apply_model_downgrade p).messages = p.messages := by
  unfold engine_apply_model_downgrade
  rcases hfind : List.find?
      (fun kv => kv.1 == p.model.getD (str "")) engineDowngrades
    with _ | kv <;> simp [hfind]

/-- Messages retained by the non-system filter are not system messages. -/
theorem lastN_filter_not_system (p : ApiParams) :
    ∀ m ∈ lastN 4 (p.messages.filter (fun m => !(m.role == str "system"))),
      (m.role == str "system") = false := by
  intro m hm
  have hmem : m ∈ p.messages.filter (fun m => !(m.role == str "system")) :=
    List.mem_of_mem_drop hm
  have := List.of_mem_filter hmem
  simpa using this

/-- C8 (amended): the consequence engine's `_apply_context_restriction`, on
a request with more than 5 messages, produces exactly the original system
messages followed by the most recent 4 non-system messages, injecting the
terse-response system instruction as a new first message when no system
message exists and prepending it to the first system message's content
otherwise. (The API wrapper's variant of the same restriction instead
keeps the last 4 messages of any role and appends its instruction to the
existing system message — see the counterexample.) -/
theorem C8_context_restriction_engine (p : ApiParams)
    (h : 5 < p.messages.length) :
    (p.messages.filter (fun m => m.role == str "system") = [] →
      (engine_apply_context_restriction p).messages =
        ⟨str "system", sterileEngine⟩ ::
          lastN 4 (p.messages.filter (fun m => !(m.role == str "system")))) ∧
    (∀ s0 rest,
      p.messages.filter (fun m => m.role == str "system") = s0 :: rest →
      (engine_apply_context_restriction p).messages =
        ⟨s0.role, sterileEngine ++ str " " ++ s0.content⟩ ::
          (rest ++
            lastN 4 (p.messages.filter (fun m => !(m.role == str "system"))))) := by
  have hdm := engine_downgrade_messages p
  constructor
  · intro hsys
    have hany :
        ((p.messages.filter (fun m => m.role == str "system") ++
          lastN 4 (p.messages.filter (fun m => !(m.role == str "system")))).any
            (fun m => m.role == str "system")) = false := by
      rw [hsys, List.nil_append]
      rw [List.any_eq_false]
      intro m hm
      simp [lastN_filter_not_system p m hm]
    simp only [engine_apply_context_restriction, hdm, if_pos h, hany,
      Bool.false_eq_true, if_false]
    rw [hsys, List.nil_append]
  · intro s0 rest hsys
    have hs0 : (s0.role == str "system") = true := by
      have hmem : s0 ∈ p.messages.filter (fun m => m.role == str "system") := by
        rw [hsys]
        exact List.mem_cons_self _ _
      exact (List.mem_filter.mp hmem).2
    have hany :
        ((p.messages.filter (fun m => m.role == str "system") ++
          lastN 4 (p.messages.filter (fun m => !(m.role == str "system")))).any
            (fun m => m.role == str "system")) = true := by
      rw [List.any_eq_true]
      refine ⟨s0, ?_, hs0⟩
      rw [hsys]
      exact List.mem_append_left _ (List.mem_cons_self _ _)
    simp only [engine_apply_context_restriction, hdm, if_pos h, hany, if_true]
    rw [hsys, List.cons_append]
    show prependFirstSystem (sterileEngine ++ str " ") _ = _
    unfold prependFirstSystem
    rw [if_pos hs0]

/-- C8 (witness): a 6-message request led by a system message, restricted by
the consequence engine: the system message keeps its place with the
instruction prepended, followed by the most recent 4 non-system messages. -/
theorem C8_context_restriction_engine_witness :
    (engine_apply_context_restriction
        ⟨some (str "gpt-4"),
          [⟨str "system", str "Be brief."⟩, ⟨str "user", str "u2"⟩,
           ⟨str "user", str "u3"⟩, ⟨str "user", str "u4"⟩,
           ⟨str "user", str "u5"⟩, ⟨str "user", str "u6"⟩], []⟩).messages =
      ⟨str "system", sterileEngine ++ str " " ++ str "Be brief."⟩ ::
        [⟨str "user", str "u3"⟩, ⟨str "user", str "u4"⟩,
         ⟨str "user", str "u5"⟩, ⟨str "user", str "u6"⟩] := by
  rw [(C8_context_restriction_engine
      ⟨some (str "gpt-4"),
        [⟨str "system", str "Be brief."⟩, ⟨str "user", str "u2"⟩,
         ⟨str "user", str "u3"⟩, ⟨str "user", str "u4"⟩,
         ⟨str "user", str "u5"⟩, ⟨str "user", str "u6"⟩], []⟩
      (by decide)).2
    ⟨str "system", str "Be brief."⟩ [] (by decide)]
  rfl

/-- C8 (counterexample): the API wrapper's request processing at the
context-restriction level (score -200) contradicts the claim on a
6-message request led by a system message: the retained tail is the last 4
messages of any role, and the terse instruction is appended — the original
system content "Be kind." is not a suffix of the resulting system content,
as it would be had the instruction been prepended — while the consequence
engine's transformation of the same request produces a different message
list. -/
theorem C8_wrapper_counterexample :
    create_chat_completion
        ⟨some (str "gpt-4"),
          [⟨str "system", str "Be kind."⟩, ⟨str "user", str "u2"⟩,
           ⟨str "user", str "u3"⟩, ⟨str "user", str "u4"⟩,
           ⟨str "user", str "u5"⟩, ⟨str "user", str "u6"⟩], []⟩ (-200) =
      ApiResult.response
        ⟨some (str "gpt-4"),
          [⟨str "system",
            str "Be kind. Respond with minimal, terse, factual answers only."⟩,
           ⟨str "user", str "u3"⟩, ⟨str "user", str "u4"⟩,
           ⟨str "user", str "u5"⟩, ⟨str "user", str "u6"⟩], []⟩ ∧
    List.isSuffixOf (str "Be kind.")
      (str "Be kind. Respond with minimal, terse, factual answers only.") =
      false ∧
    (engine_apply_context_restriction
        ⟨some (str "gpt-4"),
          [⟨str "system", str "Be kind."⟩, ⟨str "user", str "u2"⟩,
           ⟨str "user", str "u3"⟩, ⟨str "user", str "u4"⟩,
           ⟨str "user", str "u5"⟩, ⟨str "user", str "u6"⟩], []⟩).messages ≠
      [⟨str "system",
        str "Be kind. Respond with minimal, terse, factual answers only."⟩,
       ⟨str "user", str "u3"⟩, ⟨str "user", str "u4"⟩,
       ⟨str "user", str "u5"⟩, ⟨str "user", str "u6"⟩] := by
  refine ⟨by decide, by decide, by decide⟩
